import Mathlib

/-!
Shallow embedding of the session-based recommendation pipeline
(`src/api/session_store.py`, `src/api/recommender.py`,
`src/features/feature_builder.py`, `src/utils/helpers.py`).

Python floats are modelled by `ℚ`; string item ids by `String`; Python
dicts (which preserve insertion order) by association lists; the Python
sets accumulated in `generate_candidates` by insertion-ordered
duplicate-free lists (the real iteration order of a `str` set is
hash-dependent; properties about the contents of the set are independent of
this choice and order-sensitive statements are settled against it
explicitly).  `np.log1p`, a transcendental float function whose value no
verified property depends on, is passed as an explicit parameter.
-/

namespace RecSys

/-! ## SessionStore (`src/api/session_store.py`)

`add_event` pushes the item onto the Redis list `session:{id}:items`
(`LPUSH`) and truncates it to its first 100 entries (`LTRIM key 0 99`).
The recency list after a sequence of events is the fold of that step. -/

/-- One `add_event` call, restricted to its effect on the recency list:
`LPUSH item` followed by `LTRIM 0 99`. -/
def pushRecent (l : List String) (item : String) : List String :=
  (item :: l).take 100

/-- The recency list of a fresh session after recording `items` in order
(each element the `item_id` of one `add_event` call). -/
def recentItemsAfter (items : List String) : List String :=
  items.foldl pushRecent []

/-! ## Diversity reranker (`src/utils/helpers.py`, `diversify_recommendations`)

A recommendation record is read by the function only through its
`score` value and its category string (the `rec.get` calls with the
defaults 0 and `unknown`), so those are the fields modelled. -/

/-- A recommendation record as consumed by `diversify_recommendations`. -/
structure Rec where
  itemId : String
  score : ℚ
  category : String
deriving DecidableEq, Repr

/-- The per-iteration score of the greedy loop:
`base_score * (1 - diversity_penalty)` with `diversity_penalty = w` when
the category was already selected, `0` otherwise. -/
def diversityScore (w : ℚ) (seen : List String) (r : Rec) : ℚ :=
  r.score * (1 - (if r.category ∈ seen then w else 0))

/-- Model of `scores.index(max(scores))` followed by `remaining.pop(best_idx)`:
remove the first element attaining the maximal key and return it together
with the rest in original order. -/
def pickMax (key : Rec → ℚ) : List Rec → Option (Rec × List Rec)
  | [] => none
  | x :: xs =>
      match pickMax key xs with
      | none => some (x, [])
      | some (y, ys) => if key y > key x then some (y, x :: ys) else some (x, xs)

/-- The `while remaining:` loop of `diversify_recommendations`, with fuel
(the wrapper supplies `remaining.length`, which suffices since every
iteration removes exactly one element). -/
def diversifyGo (w : ℚ) : Nat → List String → List Rec → List Rec
  | 0, _, _ => []
  | fuel + 1, seen, remaining =>
      match pickMax (diversityScore w seen) remaining with
      | none => []
      | some (best, rest) =>
          best :: diversifyGo w fuel (best.category :: seen) rest

/-- Model of `diversify_recommendations`: returns the input unchanged when it is
empty or `diversity_weight <= 0`, otherwise runs the greedy
diversity-penalised selection loop. -/
def diversifyRecommendations (recommendations : List Rec) (diversityWeight : ℚ) :
    List Rec :=
  if recommendations = [] ∨ diversityWeight ≤ 0 then recommendations
  else diversifyGo diversityWeight recommendations.length [] recommendations

/-! ## Feature builder (`src/features/feature_builder.py`) -/

/-- One row of the precomputed item-similarity table
(columns `item_id_1`, `item_id_2`, `similarity`). -/
structure SimRow where
  item1 : String
  item2 : String
  sim : ℚ
deriving DecidableEq, Repr

/-- Model of `FeatureBuilder._get_similarity`: the `similarity` value of the first
row matching the unordered pair, `0.0` when none matches. -/
def getSimilarity (a b : String) (tbl : List SimRow) : ℚ :=
  match tbl.find? (fun r =>
      (r.item1 == a && r.item2 == b) || (r.item1 == b && r.item2 == a)) with
  | some r => r.sim
  | none => 0

/-- Model of `FeatureBuilder._calculate_last_item_similarity`: `0.0` when no
similarity matrix is loaded, else `_get_similarity`. -/
def calculateLastItemSimilarity (itemId lastItem : String)
    (tbl : Option (List SimRow)) : ℚ :=
  match tbl with
  | none => 0
  | some t => getSimilarity itemId lastItem t

/-- Maximum of a nonempty score list (`max(similarity_scores)`); the
`[]` case is unreachable behind the `if similarity_scores:` guard. -/
def pyMax : List ℚ → ℚ
  | [] => 0
  | x :: xs => xs.foldl max x

/-- Feature dictionaries are insertion-ordered association lists; this is
the dictionary lookup. -/
def getFeat (k : String) : List (String × ℚ) → Option ℚ
  | [] => none
  | (k₀, v) :: rest => if k = k₀ then some v else getFeat k rest

/-- The recency block of `build_interaction_features`: the
`if item_id in session_items:` / `else:` assignments of
`last_seen_position`, `recency_score` and `item_frequency_in_session`. -/
def recencyFeats (itemId : String) (sessionItems : List String) :
    List (String × ℚ) :=
  if itemId ∈ sessionItems then
    let lastIdx : ℕ :=
      sessionItems.length - 1 - sessionItems.reverse.findIdx (· == itemId)
    [("last_seen_position", (lastIdx : ℚ)),
     ("recency_score", 1 / ((sessionItems.length : ℚ) - (lastIdx : ℚ))),
     ("item_frequency_in_session", (sessionItems.count itemId : ℚ))]
  else
    [("last_seen_position", -1),
     ("recency_score", 0),
     ("item_frequency_in_session", 0)]

/-- The similarity-aggregate block of `build_interaction_features`:
written only inside `if item_similarity_matrix is not None:`; the scores
range over the distinct session items other than the candidate. -/
def simAggregateFeats (itemId : String) (sessionItems : List String)
    (tbl : Option (List SimRow)) : List (String × ℚ) :=
  match tbl with
  | none => []
  | some t =>
      let scores := (sessionItems.eraseDups.filter (fun s => s ≠ itemId)).map
        (fun s => getSimilarity itemId s t)
      if ¬ scores.isEmpty then
        [("max_similarity_to_session", pyMax scores),
         ("mean_similarity_to_session", scores.sum / (scores.length : ℚ)),
         ("sum_similarity_to_session", scores.sum)]
      else
        [("max_similarity_to_session", 0),
         ("mean_similarity_to_session", 0),
         ("sum_similarity_to_session", 0)]

/-- The co-occurrence block of `build_interaction_features`: written only
inside `if len(session_items) > 0:`. -/
def lastItemFeats (itemId : String) (sessionItems : List String)
    (tbl : Option (List SimRow)) : List (String × ℚ) :=
  if 0 < sessionItems.length then
    [("similarity_to_last_item",
      calculateLastItemSimilarity itemId (sessionItems.getLastD "") tbl)]
  else []

/-- Model of `FeatureBuilder.build_interaction_features`, as the insertion-ordered
dictionary it constructs. -/
def buildInteractionFeatures (itemId : String) (sessionItems : List String)
    (tbl : Option (List SimRow)) : List (String × ℚ) :=
  ("in_session", if itemId ∈ sessionItems then (1 : ℚ) else 0)
    :: (recencyFeats itemId sessionItems
      ++ (simAggregateFeats itemId sessionItems tbl
        ++ lastItemFeats itemId sessionItems tbl))

/-! ## Popularity percentile (`FeatureBuilder.build_item_features`) -/

/-- Model of `[(popularity - v) for v in all_popularity].count(True)`: Python
compares with `==` and `True == 1`, so this counts entries equal to 1. -/
def countPyTrue (l : List ℤ) : ℕ :=
  l.count 1

/-- Stable insertion step of an ascending sort on `ℚ`. -/
def insertAsc (x : ℚ) : List ℚ → List ℚ
  | [] => [x]
  | y :: ys => if x < y then x :: y :: ys else y :: insertAsc x ys

/-- Ascending sort on `ℚ` (the sort `np.percentile` performs). -/
def sortAsc (l : List ℚ) : List ℚ :=
  l.foldl (fun acc x => insertAsc x acc) []

/-- Model of `np.percentile(a, q)` with the default linear interpolation: sort
ascending, locate `pos = q/100 * (n-1)`, interpolate between the
neighbouring order statistics. -/
def pyPercentile (a : List ℚ) (q : ℚ) : ℚ :=
  let s := sortAsc a
  let n := s.length
  if n = 0 then 0
  else
    let pos : ℚ := q * ((n : ℚ) - 1) / 100
    let i : ℕ := (Rat.floor pos).toNat
    let lo := s.getD i 0
    let hi := s.getD (i + 1) lo
    lo + (pos - (i : ℚ)) * (hi - lo)

/-- The feature `item_popularity_percentile` exactly as assigned in
`FeatureBuilder.build_item_features` (lines 100–108):
`np.percentile(all_popularity, [(popularity - v) for v in
all_popularity].count(True) / len(all_popularity) * 100)`,
`0` when the popularity table is empty. -/
def itemPopularityPercentile (itemId : String)
    (popularityDict : List (String × ℤ)) : ℚ :=
  let popularity : ℤ := (popularityDict.lookup itemId).getD 0
  let allPopularity : List ℤ := popularityDict.map (·.2)
  if 0 < allPopularity.length then
    pyPercentile (allPopularity.map (fun v => (v : ℚ)))
      ((countPyTrue (allPopularity.map (fun v => popularity - v)) : ℚ) /
        (allPopularity.length : ℚ) * 100)
  else 0

/-- The standard percentile definition stated by the specification:
`(#items with popularity ≤ candidate) / (#items) × 100`.  Kept separate
so it can be compared with `itemPopularityPercentile`. -/
def specPopularityPercentile (itemId : String)
    (popularityDict : List (String × ℤ)) : ℚ :=
  let popularity : ℤ := (popularityDict.lookup itemId).getD 0
  ((popularityDict.filter (fun e => e.2 ≤ popularity)).length : ℚ) /
    (popularityDict.length : ℚ) * 100

/-! ## Recommender (`src/api/recommender.py`) -/

/-- The feature dictionary built per candidate by
`SessionRecommender.build_features`. -/
structure FeatureRow where
  itemId : String
  itemPopularity : ℤ
  itemPopularityLog : ℚ
  sessionLength : ℕ
  sessionViews : ℤ
  sessionClicks : ℤ
  sessionAddToCart : ℤ
  inRecentItems : ℤ
  positionInSession : ℤ

/-- The session context dictionary handed to the recommender
(`recent_items`, `event_counts`). -/
structure SessionContext where
  recentItems : List String
  eventCounts : List (String × ℤ)

/-- State of `SessionRecommender` after `_load_artifacts`: an optional
trained ranker (abstracted as an arbitrary score function on the feature
row), an optional similarity table, and the popularity dictionary. -/
structure Recommender where
  model : Option (FeatureRow → ℚ)
  itemSimilarity : Option (List SimRow)
  itemPopularity : List (String × ℤ)

/-- Model of `self.item_popularity.get(item_id, 0)`. -/
def popGet (pop : List (String × ℤ)) (itemId : String) : ℤ :=
  (pop.lookup itemId).getD 0

/-- One row of `SessionRecommender.build_features`.  `np.log1p` is the
`log1p` parameter. -/
def buildFeatureRow (pop : List (String × ℤ)) (log1p : ℤ → ℚ)
    (ctx : SessionContext) (itemId : String) : FeatureRow :=
  { itemId := itemId
    itemPopularity := popGet pop itemId
    itemPopularityLog := log1p (popGet pop itemId)
    sessionLength := ctx.recentItems.length
    sessionViews := (ctx.eventCounts.lookup "view").getD 0
    sessionClicks := (ctx.eventCounts.lookup "click").getD 0
    sessionAddToCart := (ctx.eventCounts.lookup "add_to_cart").getD 0
    inRecentItems := if itemId ∈ ctx.recentItems then 1 else 0
    positionInSession :=
      if itemId ∈ ctx.recentItems then
        (ctx.recentItems.findIdx (· == itemId) : ℤ)
      else -1 }

/-- Model of `SessionRecommender._get_reason`. -/
def getReason (row : FeatureRow) : String :=
  if row.inRecentItems = 1 then "viewed_recently"
  else if 1000 < row.itemPopularity then "popular"
  else "recommended"

/-- Stable insertion step of a descending key sort: later elements are
placed after earlier elements with the same key, matching the stable Python
`sort(key=..., reverse=True)`. -/
def insertDescBy {α : Type} (key : α → ℚ) (x : α) : List α → List α
  | [] => [x]
  | y :: ys => if key y < key x then x :: y :: ys else y :: insertDescBy key x ys

/-- Stable descending sort by a `ℚ`-valued key. -/
def sortDescBy {α : Type} (key : α → ℚ) (l : List α) : List α :=
  l.foldl (fun acc x => insertDescBy key x acc) []

/-- Model of `SessionRecommender._get_similar_items`: rows with `item_id_1 ==
item_id`, sorted by similarity descending, first `n`, projected to
`item_id_2`. -/
def getSimilarItems (tbl : List SimRow) (itemId : String) (n : ℕ) : List String :=
  ((sortDescBy (fun r => r.sim) (tbl.filter (fun r => r.item1 == itemId))).take n).map
    (fun r => r.item2)

/-- Model of `candidates.update(xs)` on the insertion-ordered model of the Python
set accumulating candidates. -/
def setUpdate (s : List String) (xs : List String) : List String :=
  xs.foldl (fun acc x => if x ∈ acc then acc else acc ++ [x]) s

/-- Strategy 1 of `generate_candidates`: top-20 similar items of each of
the first five `recent_items`, when a similarity table is loaded and the
session is nonempty. -/
def simCandidates (R : Recommender) (recentItems : List String) : List String :=
  match R.itemSimilarity with
  | some tbl =>
      if 0 < recentItems.length then
        (recentItems.take 5).foldl
          (fun acc it => setUpdate acc (getSimilarItems tbl it 20)) []
      else []
  | none => []

/-- Strategy 2 of `generate_candidates`: `sorted(popularity.items(),
key=count, reverse=True)[:50]` — a stable descending sort of the
insertion-ordered dictionary items. -/
def topPopular (pop : List (String × ℤ)) : List (String × ℤ) :=
  (sortDescBy (fun e => (e.2 : ℚ)) pop).take 50

/-- The candidate set of `generate_candidates` after both strategies and
after removing `recent_items` and `exclude_items` — everything before the
empty-pool fallback. -/
def candidatePool (R : Recommender) (ctx : SessionContext)
    (exclude : List String) : List String :=
  let c1 := simCandidates R ctx.recentItems
  let c2 :=
    if R.itemPopularity.isEmpty then c1
    else setUpdate c1 ((topPopular R.itemPopularity).map (·.1))
  (c2.filter (fun x => ¬ x ∈ ctx.recentItems)).filter (fun x => ¬ x ∈ exclude)

/-- Model of `SessionRecommender.generate_candidates`: the candidate pool, or —
when it is empty — the first `k` keys of the popularity dictionary
(`set(list(self.item_popularity.keys())[:k])`); truncated to `k`. -/
def generateCandidates (R : Recommender) (ctx : SessionContext) (k : ℕ)
    (exclude : List String) : List String :=
  let pool := candidatePool R ctx exclude
  let c :=
    if pool.isEmpty then setUpdate [] ((R.itemPopularity.map (·.1)).take k)
    else pool
  c.take k

/-- The `(item_id, score, reason)` triples of `rank_candidates` before
sorting: scores come from the trained model when loaded, else from the
raw popularity counts (fallback scoring); the `zip` pairs each candidate
with the score of its own feature row. -/
def scoredResults (R : Recommender) (log1p : ℤ → ℚ) (candidates : List String)
    (ctx : SessionContext) : List (String × ℚ × String) :=
  match R.model with
  | some f =>
      candidates.map (fun c =>
        let row := buildFeatureRow R.itemPopularity log1p ctx c
        (c, f row, getReason row))
  | none =>
      candidates.map (fun c =>
        let row := buildFeatureRow R.itemPopularity log1p ctx c
        (c, ((popGet R.itemPopularity c : ℚ)), getReason row))

/-- Model of `SessionRecommender.rank_candidates`:
`results.sort(key=lambda x: x[1], reverse=True)`. -/
def rankCandidates (R : Recommender) (log1p : ℤ → ℚ) (candidates : List String)
    (ctx : SessionContext) : List (String × ℚ × String) :=
  sortDescBy (fun t => t.2.1) (scoredResults R log1p candidates ctx)

/-- One element of a `recommend` response. -/
structure RankedItem where
  itemId : String
  score : ℚ
  reason : String
  rank : ℕ
deriving DecidableEq, Repr

/-- Model of `enumerate(ranked[:k], start=1)` turned into response records. -/
def addRanks : ℕ → List (String × ℚ × String) → List RankedItem
  | _, [] => []
  | n, (c, s, r) :: rest => ⟨c, s, r, n⟩ :: addRanks (n + 1) rest

/-- Model of `SessionRecommender.recommend`: generate a pool of `max(k*5, 100)`
candidates, return `[]` when there are none, else rank and keep the
top `k` with ranks assigned from 1. -/
def recommend (R : Recommender) (log1p : ℤ → ℚ) (ctx : SessionContext)
    (k : ℕ) (exclude : List String) : List RankedItem :=
  let candidates := generateCandidates R ctx (max (k * 5) 100) exclude
  if candidates.isEmpty then []
  else addRanks 1 ((rankCandidates R log1p candidates ctx).take k)

/-! ## The candidate ordering stated by the specification (§4.2)

A second definition following the words of the specification, kept for
comparison with `generateCandidates`: similarity-sourced items first
(descending similarity score, ties by item id ascending), then
popularity-sourced items (descending count, ties by item id ascending),
duplicates resolved in favour of the similarity source, `recent_items`
and `exclude_set` removed, popularity-ranking fallback when empty,
truncation to the pool size. -/

/-- Lexicographic order on character-code lists (the order the Python
string `<` induces on ASCII item ids). -/
def charListLt : List Char → List Char → Bool
  | [], [] => false
  | [], _ :: _ => true
  | _ :: _, [] => false
  | c :: cs, d :: ds =>
      if c.toNat < d.toNat then true
      else if d.toNat < c.toNat then false
      else charListLt cs ds

/-- The Python string comparison `<` on item ids. -/
def strLtB (a b : String) : Bool :=
  charListLt a.toList b.toList

/-- Stable insertion step of an ascending sort by the `String` id in the
first component. -/
def insertByIdAsc {α : Type} (x : String × α) :
    List (String × α) → List (String × α)
  | [] => [x]
  | y :: ys => if strLtB x.1 y.1 then x :: y :: ys else y :: insertByIdAsc x ys

/-- Stable ascending sort by the `String` id in the first component. -/
def sortByIdAsc {α : Type} (l : List (String × α)) : List (String × α) :=
  l.foldl (fun acc x => insertByIdAsc x acc) []

/-- Deduplicate a tagged list by item id, first occurrence wins. -/
def dedupById {α : Type} (l : List (String × α)) : List (String × α) :=
  l.foldl (fun acc p => if acc.any (fun q => q.1 == p.1) then acc else acc ++ [p]) []

/-- Sort score-tagged items by descending score, ties by id ascending
(a stable descending sort applied after an ascending id sort). -/
def specSortDescTieId (l : List (String × ℚ)) : List (String × ℚ) :=
  sortDescBy (fun p => p.2) (sortByIdAsc l)

/-- The popularity ranking of the specification: count descending, ties
by item id ascending. -/
def specPopRanking (pop : List (String × ℤ)) : List (String × ℤ) :=
  sortDescBy (fun e => (e.2 : ℚ)) (sortByIdAsc pop)

/-- Specification step 1: similarity-sourced candidates of the five most
recent items, tagged with their similarity scores, deduplicated by id
(first occurrence wins). -/
def specSimTagged (R : Recommender) (recentItems : List String) :
    List (String × ℚ) :=
  match R.itemSimilarity with
  | none => []
  | some tbl =>
      dedupById ((recentItems.take 5).foldl (fun acc it =>
        acc ++ ((sortDescBy (fun r => r.sim)
          (tbl.filter (fun r => r.item1 == it))).take 20).map
            (fun r => (r.item2, r.sim))) [])

/-- Specification steps 1–6 of `generate(session_context, pool_size,
exclude_set)` assembled: the explicitly ordered candidate sequence. -/
def specOrderedCandidates (R : Recommender) (ctx : SessionContext)
    (poolSize : ℕ) (exclude : List String) : List String :=
  let sims := specSimTagged R ctx.recentItems
  let pops := ((specPopRanking R.itemPopularity).take 50).filter
    (fun p => ¬ sims.any (fun q => q.1 == p.1))
  let keep : String → Bool := fun x => ¬ (x ∈ ctx.recentItems ∨ x ∈ exclude)
  let simsF := sims.filter (fun p => keep p.1)
  let popsF := pops.filter (fun p => keep p.1)
  let ordered := (specSortDescTieId simsF).map (·.1) ++ popsF.map (·.1)
  if ordered.isEmpty then
    ((specPopRanking R.itemPopularity).map (·.1)).take poolSize
  else ordered.take poolSize

/-! ## Concrete instances used by witnesses and counterexamples -/

/-- A `log1p` stand-in for concrete evaluations. -/
def zeroLog : ℤ → ℚ := fun _ => 0

/-- Similarity table: `x` is similar to `a` (score 1), `y` to `b`
(score 9). -/
def simTableAB : List SimRow := [⟨"x", "a", 1⟩, ⟨"y", "b", 9⟩]

/-- Recommender with only the `simTableAB` similarity artifact. -/
def recSimOnly : Recommender := ⟨none, some simTableAB, []⟩

/-- A session that viewed `x` then `y` (most recent first). -/
def ctxXY : SessionContext := ⟨["x", "y"], []⟩

/-- Recommender with only a one-item popularity table. -/
def recPopA : Recommender := ⟨none, none, [("A", 5)]⟩

/-- A session whose only item is `A`. -/
def ctxA : SessionContext := ⟨["A"], []⟩

/-- Recommender with a two-item popularity table. -/
def recPopAB : Recommender := ⟨none, none, [("A", 5), ("B", 3)]⟩

/-- Recommender with no artifacts at all. -/
def recEmpty : Recommender := ⟨none, none, []⟩

/-- The empty session. -/
def ctxEmpty : SessionContext := ⟨[], []⟩

/-- Recommender with a single very popular item `C`. -/
def recPopC : Recommender := ⟨none, none, [("C", 1500)]⟩

/-- A session whose only item is `R`. -/
def ctxR : SessionContext := ⟨["R"], []⟩

/-! # Theorems -/

/-! ## Recency list lemmas -/

theorem length_pushRecent (acc : List String) (x : String) :
    (pushRecent acc x).length = min 100 (acc.length + 1) := by
  simp [pushRecent]
  omega

theorem length_foldl_pushRecent (items : List String) :
    ∀ acc : List String, acc.length ≤ 100 →
      (items.foldl pushRecent acc).length = min (acc.length + items.length) 100 := by
  induction items with
  | nil =>
      intro acc h
      simp only [List.foldl_nil, List.length_nil, Nat.add_zero]
      omega
  | cons x xs ih =>
      intro acc h
      have hle : (pushRecent acc x).length ≤ 100 := by
        rw [length_pushRecent]; omega
      rw [List.foldl_cons, ih (pushRecent acc x) hle, length_pushRecent,
        List.length_cons]
      omega

theorem head_foldl_pushRecent (items : List String) :
    ∀ acc : List String, items ≠ [] →
      (items.foldl pushRecent acc).head? = items.getLast? := by
  induction items with
  | nil => intro _ h; exact absurd rfl h
  | cons x xs ih =>
      intro acc _
      rw [List.foldl_cons]
      cases hxs : xs with
      | nil => simp [pushRecent]
      | cons y ys =>
          rw [← hxs, ih (pushRecent acc x) (by rw [hxs]; simp), hxs,
            List.getLast?_cons_cons]

/-! ## Greedy reranker lemmas -/

theorem pickMax_eq_none (key : Rec → ℚ) :
    ∀ l : List Rec, pickMax key l = none ↔ l = [] := by
  intro l
  cases l with
  | nil => simp [pickMax]
  | cons x xs =>
      simp only [pickMax]
      cases h : pickMax key xs with
      | none => simp
      | some p =>
          obtain ⟨y, ys⟩ := p
          by_cases hk : key y > key x <;> simp [hk]

theorem pickMax_perm (key : Rec → ℚ) :
    ∀ l : List Rec, ∀ y ys, pickMax key l = some (y, ys) → l.Perm (y :: ys) := by
  intro l
  induction l with
  | nil => intro y ys h; simp [pickMax] at h
  | cons x xs ih =>
      intro y ys h
      rw [pickMax] at h
      cases hx : pickMax key xs with
      | none =>
          have hxs : xs = [] := (pickMax_eq_none key xs).mp hx
          subst hxs
          simp only [pickMax, Option.some.injEq, Prod.mk.injEq] at h
          obtain ⟨hy, hys⟩ := h
          subst hy; subst hys
          exact List.Perm.refl _
      | some p =>
          obtain ⟨y₀, ys₀⟩ := p
          simp only [hx] at h
          by_cases hk : key y₀ > key x
          · rw [if_pos hk] at h
            simp only [Option.some.injEq, Prod.mk.injEq] at h
            obtain ⟨hy, hys⟩ := h
            subst hy; subst hys
            exact ((ih _ _ hx).cons x).trans (List.Perm.swap _ x _)
          · rw [if_neg hk] at h
            simp only [Option.some.injEq, Prod.mk.injEq] at h
            obtain ⟨hy, hys⟩ := h
            subst hy; subst hys
            exact List.Perm.refl _

theorem pickMax_length (key : Rec → ℚ) :
    ∀ l : List Rec, ∀ y ys, pickMax key l = some (y, ys) → ys.length < l.length := by
  intro l y ys h
  have := (pickMax_perm key l y ys h).length_eq
  simp only [List.length_cons] at this
  omega

theorem diversifyGo_perm (w : ℚ) :
    ∀ fuel seen remaining, remaining.length ≤ fuel →
      (diversifyGo w fuel seen remaining).Perm remaining := by
  intro fuel
  induction fuel with
  | zero =>
      intro seen remaining h
      have : remaining = [] := List.length_eq_zero.mp (Nat.le_zero.mp h)
      subst this; exact List.Perm.refl _
  | succ n ih =>
      intro seen remaining h
      rw [diversifyGo]
      cases hp : pickMax (diversityScore w seen) remaining with
      | none =>
          have : remaining = [] := (pickMax_eq_none _ remaining).mp hp
          subst this; exact List.Perm.refl _
      | some p =>
          obtain ⟨best, rest⟩ := p
          have hperm := pickMax_perm _ remaining best rest hp
          have hlen : rest.length ≤ n := by
            have := pickMax_length _ remaining best rest hp
            omega
          exact ((ih _ rest hlen).cons best).trans hperm.symm

/-! ## Stable descending sort lemmas -/

theorem mem_insertDescBy {α : Type} (key : α → ℚ) (x : α) (l : List α) (z : α) :
    z ∈ insertDescBy key x l ↔ z = x ∨ z ∈ l := by
  induction l with
  | nil => simp [insertDescBy]
  | cons y ys ih =>
      rw [insertDescBy]
      by_cases h : key y < key x
      · rw [if_pos h]
        simp
      · rw [if_neg h]
        simp only [List.mem_cons, ih]
        tauto

theorem insertDescBy_perm {α : Type} (key : α → ℚ) (x : α) (l : List α) :
    (insertDescBy key x l).Perm (x :: l) := by
  induction l with
  | nil => exact List.Perm.refl _
  | cons y ys ih =>
      rw [insertDescBy]
      by_cases h : key y < key x
      · rw [if_pos h]
      · rw [if_neg h]
        exact (ih.cons y).trans (List.Perm.swap x y ys)

theorem insertDescBy_pairwise {α : Type} (key : α → ℚ) (x : α) (l : List α)
    (hl : l.Pairwise (fun a b => key b ≤ key a)) :
    (insertDescBy key x l).Pairwise (fun a b => key b ≤ key a) := by
  induction l with
  | nil => simp [insertDescBy]
  | cons y ys ih =>
      rw [List.pairwise_cons] at hl
      rw [insertDescBy]
      by_cases h : key y < key x
      · rw [if_pos h, List.pairwise_cons]
        refine ⟨?_, List.pairwise_cons.mpr hl⟩
        intro z hz
        rcases List.mem_cons.mp hz with hzy | hzys
        · subst hzy; exact le_of_lt h
        · exact le_trans (hl.1 z hzys) (le_of_lt h)
      · rw [if_neg h, List.pairwise_cons]
        refine ⟨?_, ih hl.2⟩
        intro z hz
        rcases (mem_insertDescBy key x ys z).mp hz with hzx | hzys
        · subst hzx; exact le_of_not_lt h
        · exact hl.1 z hzys

theorem sortDescBy_perm_aux {α : Type} (key : α → ℚ) (l : List α) :
    ∀ acc : List α,
      (l.foldl (fun a x => insertDescBy key x a) acc).Perm (acc ++ l) := by
  induction l with
  | nil => intro acc; simp
  | cons x xs ih =>
      intro acc
      rw [List.foldl_cons]
      refine (ih (insertDescBy key x acc)).trans ?_
      refine (((insertDescBy_perm key x acc).append_right xs).trans ?_)
      rw [List.cons_append]
      exact (List.perm_middle).symm

theorem sortDescBy_perm {α : Type} (key : α → ℚ) (l : List α) :
    (sortDescBy key l).Perm l := by
  simpa using sortDescBy_perm_aux key l []

theorem sortDescBy_pairwise_aux {α : Type} (key : α → ℚ) (l : List α) :
    ∀ acc : List α, acc.Pairwise (fun a b => key b ≤ key a) →
      (l.foldl (fun a x => insertDescBy key x a) acc).Pairwise
        (fun a b => key b ≤ key a) := by
  induction l with
  | nil => intro acc h; simpa using h
  | cons x xs ih =>
      intro acc h
      rw [List.foldl_cons]
      exact ih (insertDescBy key x acc) (insertDescBy_pairwise key x acc h)

theorem sortDescBy_pairwise {α : Type} (key : α → ℚ) (l : List α) :
    (sortDescBy key l).Pairwise (fun a b => key b ≤ key a) :=
  sortDescBy_pairwise_aux key l [] (List.Pairwise.nil)

/-! ## Rank assignment lemmas -/

theorem addRanks_length (l : List (String × ℚ × String)) :
    ∀ n : ℕ, (addRanks n l).length = l.length := by
  induction l with
  | nil => intro n; rfl
  | cons x xs ih =>
      intro n
      obtain ⟨c, s, r⟩ := x
      simp [addRanks, ih]

theorem addRanks_map_rank (l : List (String × ℚ × String)) :
    ∀ n : ℕ, (addRanks n l).map (fun r => r.rank) = List.range' n l.length := by
  induction l with
  | nil => intro n; rfl
  | cons x xs ih =>
      intro n
      obtain ⟨c, s, r⟩ := x
      simp [addRanks, ih, List.range']

/-! ## Feature dictionary lemmas -/

theorem getFeat_append (k : String) (l₁ l₂ : List (String × ℚ)) :
    getFeat k (l₁ ++ l₂) =
      match getFeat k l₁ with
      | some v => some v
      | none => getFeat k l₂ := by
  induction l₁ with
  | nil => simp [getFeat]
  | cons p rest ih =>
      obtain ⟨k₀, v⟩ := p
      rw [List.cons_append, getFeat, getFeat]
      by_cases h : k = k₀
      · rw [if_pos h, if_pos h]
      · rw [if_neg h, if_neg h, ih]

theorem getFeat_cons_isSome (k k₀ : String) (v : ℚ) (rest : List (String × ℚ))
    (h : (getFeat k rest).isSome = true) :
    (getFeat k ((k₀, v) :: rest)).isSome = true := by
  rw [getFeat]
  by_cases hk : k = k₀
  · rw [if_pos hk]; rfl
  · rw [if_neg hk]; exact h

theorem getFeat_cons_ne (k k₀ : String) (v : ℚ) (rest : List (String × ℚ))
    (h : k ≠ k₀) : getFeat k ((k₀, v) :: rest) = getFeat k rest := by
  rw [getFeat, if_neg h]

theorem getFeat_append_left_eq (k : String) (l₁ l₂ : List (String × ℚ)) (v : ℚ)
    (h : getFeat k l₁ = some v) : getFeat k (l₁ ++ l₂) = some v := by
  rw [getFeat_append, h]

theorem getFeat_append_right_eq (k : String) (l₁ l₂ : List (String × ℚ))
    (h : getFeat k l₁ = none) : getFeat k (l₁ ++ l₂) = getFeat k l₂ := by
  rw [getFeat_append, h]

theorem getFeat_append_isSome_left (k : String) (l₁ l₂ : List (String × ℚ))
    (h : (getFeat k l₁).isSome = true) :
    (getFeat k (l₁ ++ l₂)).isSome = true := by
  rw [getFeat_append]
  cases hg : getFeat k l₁ with
  | none => rw [hg] at h; simp at h
  | some v => rfl

theorem getFeat_append_isSome_right (k : String) (l₁ l₂ : List (String × ℚ))
    (h₁ : getFeat k l₁ = none) (h₂ : (getFeat k l₂).isSome = true) :
    (getFeat k (l₁ ++ l₂)).isSome = true := by
  rw [getFeat_append_right_eq k l₁ l₂ h₁]
  exact h₂

/-! ## Interaction-feature segment lemmas -/

theorem recencyFeats_no_max (itemId : String) (sess : List String) :
    getFeat "max_similarity_to_session" (recencyFeats itemId sess) = none := by
  unfold recencyFeats
  by_cases h : itemId ∈ sess <;> simp +decide [h, getFeat]

theorem recencyFeats_no_lastsim (itemId : String) (sess : List String) :
    getFeat "similarity_to_last_item" (recencyFeats itemId sess) = none := by
  unfold recencyFeats
  by_cases h : itemId ∈ sess <;> simp +decide [h, getFeat]

theorem recencyFeats_lastpos_isSome (itemId : String) (sess : List String) :
    (getFeat "last_seen_position" (recencyFeats itemId sess)).isSome = true := by
  unfold recencyFeats
  by_cases h : itemId ∈ sess <;> simp +decide [h, getFeat]

theorem recencyFeats_recency_isSome (itemId : String) (sess : List String) :
    (getFeat "recency_score" (recencyFeats itemId sess)).isSome = true := by
  unfold recencyFeats
  by_cases h : itemId ∈ sess <;> simp +decide [h, getFeat]

theorem recencyFeats_freq_isSome (itemId : String) (sess : List String) :
    (getFeat "item_frequency_in_session" (recencyFeats itemId sess)).isSome
      = true := by
  unfold recencyFeats
  by_cases h : itemId ∈ sess <;> simp +decide [h, getFeat]

theorem simAggregateFeats_max_isSome (itemId : String) (sess : List String)
    (t : List SimRow) :
    (getFeat "max_similarity_to_session"
      (simAggregateFeats itemId sess (some t))).isSome = true := by
  simp only [simAggregateFeats]
  split <;> simp +decide [getFeat]

theorem simAggregateFeats_empty_session (itemId : String) (t : List SimRow) :
    simAggregateFeats itemId [] (some t) =
      [("max_similarity_to_session", 0),
       ("mean_similarity_to_session", 0),
       ("sum_similarity_to_session", 0)] := by
  rfl

theorem simAggregateFeats_no_lastsim (itemId : String) (sess : List String)
    (tbl : Option (List SimRow)) :
    getFeat "similarity_to_last_item" (simAggregateFeats itemId sess tbl)
      = none := by
  cases tbl with
  | none => rfl
  | some t =>
      simp only [simAggregateFeats]
      split <;> simp +decide [getFeat]

theorem lastItemFeats_nil (itemId : String) (tbl : Option (List SimRow)) :
    lastItemFeats itemId [] tbl = [] := by
  simp [lastItemFeats]

theorem lastItemFeats_no_max (itemId : String) (sess : List String)
    (tbl : Option (List SimRow)) :
    getFeat "max_similarity_to_session" (lastItemFeats itemId sess tbl)
      = none := by
  unfold lastItemFeats
  split <;> simp +decide [getFeat]

theorem lastItemFeats_cons_isSome (itemId x : String) (xs : List String)
    (tbl : Option (List SimRow)) :
    (getFeat "similarity_to_last_item"
      (lastItemFeats itemId (x :: xs) tbl)).isSome = true := by
  simp +decide [lastItemFeats, getFeat]

theorem lastItemFeats_cons_none_val (itemId x : String) (xs : List String) :
    getFeat "similarity_to_last_item" (lastItemFeats itemId (x :: xs) none)
      = some 0 := by
  simp +decide [lastItemFeats, getFeat, calculateLastItemSimilarity]

/-! ## Recommender lemmas -/

theorem getReason_buildFeatureRow (pop : List (String × ℤ)) (log1p : ℤ → ℚ)
    (ctx : SessionContext) (itemId : String) :
    getReason (buildFeatureRow pop log1p ctx itemId) =
      if itemId ∈ ctx.recentItems then "viewed_recently"
      else if 1000 < popGet pop itemId then "popular"
      else "recommended" := by
  unfold getReason buildFeatureRow
  by_cases h : itemId ∈ ctx.recentItems
  · simp [h]
  · simp [h]

theorem map_fst_scoredResults (R : Recommender) (log1p : ℤ → ℚ)
    (candidates : List String) (ctx : SessionContext) :
    (scoredResults R log1p candidates ctx).map (fun t => t.1) = candidates := by
  unfold scoredResults
  cases R.model with
  | none => simp [Function.comp_def]
  | some f => simp [Function.comp_def]

theorem mem_scoredResults (R : Recommender) (log1p : ℤ → ℚ)
    (candidates : List String) (ctx : SessionContext)
    (item : String) (score : ℚ) (reason : String)
    (h : (item, score, reason) ∈ scoredResults R log1p candidates ctx) :
    reason = getReason (buildFeatureRow R.itemPopularity log1p ctx item) := by
  unfold scoredResults at h
  cases hm : R.model with
  | none =>
      simp only [hm, List.mem_map] at h
      obtain ⟨c, _, heq⟩ := h
      simp only [Prod.mk.injEq] at heq
      obtain ⟨hc, _, hr⟩ := heq
      rw [← hr, ← hc]
  | some f =>
      simp only [hm, List.mem_map] at h
      obtain ⟨c, _, heq⟩ := h
      simp only [Prod.mk.injEq] at heq
      obtain ⟨hc, _, hr⟩ := heq
      rw [← hr, ← hc]

/-! ## Claim theorems -/

/-- C8: across every sequence of `record_event` calls the recency list
stays within the 100-entry cap, its head is the most recently inserted
item, and after 150 insertions its length is exactly 100. -/
theorem recency_list_cap :
    ∀ items : List String,
      (recentItemsAfter items).length ≤ 100 ∧
      (items ≠ [] → (recentItemsAfter items).head? = items.getLast?) ∧
      (items.length = 150 → (recentItemsAfter items).length = 100) := by
  intro items
  have hlen := length_foldl_pushRecent items [] (by simp)
  refine ⟨?_, ?_, ?_⟩
  · unfold recentItemsAfter
    rw [hlen]
    omega
  · intro h
    exact head_foldl_pushRecent items [] h
  · intro h
    unfold recentItemsAfter
    rw [hlen, h]
    omega

/-- Witness for C8 at a concrete run of 150 insertions. -/
theorem recency_list_cap_witness :
    (recentItemsAfter (List.replicate 150 "x")).length = 100 ∧
    (recentItemsAfter (List.replicate 150 "x")).head? =
      (List.replicate 150 "x").getLast? :=
  ⟨(recency_list_cap (List.replicate 150 "x")).2.2 (by simp),
   (recency_list_cap (List.replicate 150 "x")).2.1 (by simp)⟩

/-- C9: with `diversity_weight = 0` the reranker returns its input list
unchanged. -/
theorem diversify_zero_weight_identity :
    ∀ recs : List Rec, diversifyRecommendations recs 0 = recs := by
  intro recs
  unfold diversifyRecommendations
  rw [if_pos (Or.inr le_rfl)]

/-- C10: for every diversity weight the output of the reranker is a
permutation of its input. -/
theorem diversify_preserves_multiset :
    ∀ (recs : List Rec) (w : ℚ), (diversifyRecommendations recs w).Perm recs := by
  intro recs w
  unfold diversifyRecommendations
  by_cases h : recs = [] ∨ w ≤ 0
  · rw [if_pos h]
  · rw [if_neg h]
    exact diversifyGo_perm w recs.length [] recs le_rfl

/-- C6: on a table mapping A to 5 and B to 3, the source function
`item_popularity_percentile` for `A` evaluates to 3 (it feeds a
boolean-membership count into `np.percentile`, returning a percentile
value of the count distribution), while the percentile stated by the
specification — `(#items with popularity ≤ candidate)/(#items) × 100` —
is 100. -/
theorem popularity_percentile_diverges :
    itemPopularityPercentile "A" [("A", 5), ("B", 3)] = 3 ∧
    specPopularityPercentile "A" [("A", 5), ("B", 3)] = 100 := by
  constructor
  · norm_num [itemPopularityPercentile, pyPercentile, sortAsc, insertAsc,
      countPyTrue, show Rat.floor (0 : ℚ) = 0 from by decide]
  · norm_num [specPopularityPercentile]

/-- C1: `generate_candidates` does not produce the
similarity-first, score-descending order stated by the specification: on
a session `[x, y]` with similar items `a` (score 1, via `x`) and `b`
(score 9, via `y`), the set-accumulating code yields the candidates in
discovery order `[a, b]` (under the insertion-ordered model of the
Python set, whose real iteration order is hash-dependent), while the
specified ordering is `[b, a]`. -/
theorem generate_candidates_order_diverges_from_spec :
    generateCandidates recSimOnly ctxXY 10 [] = ["a", "b"] ∧
    specOrderedCandidates recSimOnly ctxXY 10 [] = ["b", "a"] ∧
    (["a", "b"] : List String) ≠ ["b", "a"] := by
  decide

/-- C3 counterexample: on the empty-pool fallback path
`generate_candidates` returns items from `recent_items`: with popularity
`{A:5}` and session `[A]`, the filtered pool is empty and the fallback
returns `[A]` although `A` is in `recent_items`. -/
theorem generate_candidates_fallback_ignores_recent :
    generateCandidates recPopA ctxA 10 [] = ["A"] ∧ "A" ∈ ctxA.recentItems := by
  decide

/-- C3 (amended): whenever the filtered candidate pool is nonempty — that
is, off the fallback path — no generated candidate is in `recent_items`
or in the exclude set. -/
theorem generate_candidates_excludes_when_pool_nonempty :
    ∀ (R : Recommender) (ctx : SessionContext) (k : ℕ) (exclude : List String),
      candidatePool R ctx exclude ≠ [] →
      ∀ x ∈ generateCandidates R ctx k exclude,
        ¬ x ∈ ctx.recentItems ∧ ¬ x ∈ exclude := by
  intro R ctx k exclude hpool x hx
  have hne : (candidatePool R ctx exclude).isEmpty = false := by
    cases h : candidatePool R ctx exclude with
    | nil => exact absurd h hpool
    | cons a l => rfl
  simp only [generateCandidates, hne, Bool.false_eq_true, if_false] at hx
  have hx2 : x ∈ candidatePool R ctx exclude := List.mem_of_mem_take hx
  unfold candidatePool at hx2
  simp only [List.mem_filter, decide_eq_true_eq] at hx2
  exact ⟨hx2.1.2, hx2.2⟩

/-- Witness for the amended C3: with popularity `{A:5, B:3}` and session
`[A]`, the pool is `[B]` and the returned candidate `B` is neither
recent nor excluded. -/
theorem generate_candidates_excludes_witness :
    ¬ "B" ∈ ctxA.recentItems ∧ ¬ "B" ∈ ([] : List String) :=
  generate_candidates_excludes_when_pool_nonempty recPopAB ctxA 10 []
    (by decide) "B" (by decide)

/-- C2: `recommend` returns at most `k` items whose `rank` fields are
exactly `1, 2, …, length`, and an empty candidate list yields the empty
response rather than an error. -/
theorem recommend_topk_contract :
    ∀ (R : Recommender) (log1p : ℤ → ℚ) (ctx : SessionContext) (k : ℕ)
      (exclude : List String),
      (recommend R log1p ctx k exclude).length ≤ k ∧
      (recommend R log1p ctx k exclude).map (fun r => r.rank) =
        List.range' 1 (recommend R log1p ctx k exclude).length ∧
      (generateCandidates R ctx (max (k * 5) 100) exclude = [] →
        recommend R log1p ctx k exclude = []) := by
  intro R log1p ctx k exclude
  unfold recommend
  cases hc : (generateCandidates R ctx (max (k * 5) 100) exclude).isEmpty with
  | true =>
      simp [hc, List.range']
  | false =>
      simp only [hc, Bool.false_eq_true, if_false]
      refine ⟨?_, ?_, ?_⟩
      · rw [addRanks_length, List.length_take]
        exact min_le_left _ _
      · rw [addRanks_map_rank, addRanks_length]
      · intro h
        rw [h] at hc
        simp at hc

/-- Witness for C2 at a concrete recommender state. -/
theorem recommend_topk_contract_witness :
    (recommend recPopAB zeroLog ctxA 3 []).length ≤ 3 ∧
    (recommend recPopAB zeroLog ctxA 3 []).map (fun r => r.rank) =
      List.range' 1 (recommend recPopAB zeroLog ctxA 3 []).length ∧
    (generateCandidates recPopAB ctxA (max (3 * 5) 100) [] = [] →
      recommend recPopAB zeroLog ctxA 3 [] = []) :=
  recommend_topk_contract recPopAB zeroLog ctxA 3 []

/-- C4 counterexample: equal-score candidates are returned in the input
order of the candidate list, not in ascending item-id order: candidates
`["b", "a"]` with no popularity data both score 0 and are returned as
`[b, a]` although `a` precedes `b` in id order. -/
theorem rank_candidates_tie_in_input_order :
    rankCandidates recEmpty zeroLog ["b", "a"] ctxEmpty =
      [("b", 0, "recommended"), ("a", 0, "recommended")] ∧
    strLtB "a" "b" = true := by
  decide

/-- C4 (amended): `rank_candidates` output is sorted by score descending
and its item ids are a permutation of the candidate list; equal scores
keep the candidate-list order (the stable Python sort), not ascending id
order. -/
theorem rank_candidates_sorted_desc :
    ∀ (R : Recommender) (log1p : ℤ → ℚ) (cands : List String)
      (ctx : SessionContext),
      (rankCandidates R log1p cands ctx).Pairwise
        (fun a b => b.2.1 ≤ a.2.1) ∧
      ((rankCandidates R log1p cands ctx).map (fun t => t.1)).Perm cands := by
  intro R log1p cands ctx
  constructor
  · exact sortDescBy_pairwise _ _
  · unfold rankCandidates
    have h1 :=
      (sortDescBy_perm (fun t : String × ℚ × String => t.2.1)
        (scoredResults R log1p cands ctx)).map (fun t => t.1)
    rw [map_fst_scoredResults] at h1
    exact h1

/-- C5 counterexample: with no similarity matrix and an empty session,
`build_interaction_features` omits the similarity aggregate and the
similarity-to-last-item entries entirely instead of emitting them with
value 0. -/
theorem interaction_features_absent :
    getFeat "max_similarity_to_session"
      (buildInteractionFeatures "c" [] none) = none ∧
    getFeat "mean_similarity_to_session"
      (buildInteractionFeatures "c" [] none) = none ∧
    getFeat "sum_similarity_to_session"
      (buildInteractionFeatures "c" [] none) = none ∧
    getFeat "similarity_to_last_item"
      (buildInteractionFeatures "c" [] none) = none := by
  decide

/-- C5 (amended): the always-computed interaction features are present
for every input; the similarity aggregates are present exactly when a
similarity matrix is supplied (value 0 when the session holds no other
distinct item), and `similarity_to_last_item` is present exactly when
the session is nonempty (value 0 when no similarity data is supplied) —
in the uncovered cases the entries are absent, not 0. -/
theorem interaction_features_schema :
    ∀ (itemId : String) (sess : List String) (tbl : Option (List SimRow))
      (t : List SimRow) (x : String) (xs : List String),
      (getFeat "in_session" (buildInteractionFeatures itemId sess tbl)).isSome
          = true ∧
      (getFeat "last_seen_position"
        (buildInteractionFeatures itemId sess tbl)).isSome = true ∧
      (getFeat "recency_score"
        (buildInteractionFeatures itemId sess tbl)).isSome = true ∧
      (getFeat "item_frequency_in_session"
        (buildInteractionFeatures itemId sess tbl)).isSome = true ∧
      getFeat "max_similarity_to_session"
        (buildInteractionFeatures itemId sess none) = none ∧
      (getFeat "max_similarity_to_session"
        (buildInteractionFeatures itemId sess (some t))).isSome = true ∧
      getFeat "max_similarity_to_session"
        (buildInteractionFeatures itemId [] (some t)) = some 0 ∧
      getFeat "similarity_to_last_item"
        (buildInteractionFeatures itemId [] tbl) = none ∧
      (getFeat "similarity_to_last_item"
        (buildInteractionFeatures itemId (x :: xs) tbl)).isSome = true ∧
      getFeat "similarity_to_last_item"
        (buildInteractionFeatures itemId (x :: xs) none) = some 0 := by
  intro itemId sess tbl t x xs
  refine ⟨?_, ?_, ?_, ?_, ?_, ?_, ?_, ?_, ?_, ?_⟩
  · simp only [buildInteractionFeatures, getFeat, if_pos rfl]
    rfl
  · simp only [buildInteractionFeatures]
    rw [getFeat_cons_ne _ _ _ _ (by decide)]
    exact getFeat_append_isSome_left _ _ _ (recencyFeats_lastpos_isSome _ _)
  · simp only [buildInteractionFeatures]
    rw [getFeat_cons_ne _ _ _ _ (by decide)]
    exact getFeat_append_isSome_left _ _ _ (recencyFeats_recency_isSome _ _)
  · simp only [buildInteractionFeatures]
    rw [getFeat_cons_ne _ _ _ _ (by decide)]
    exact getFeat_append_isSome_left _ _ _ (recencyFeats_freq_isSome _ _)
  · simp only [buildInteractionFeatures]
    rw [getFeat_cons_ne _ _ _ _ (by decide),
      getFeat_append_right_eq _ _ _ (recencyFeats_no_max _ _),
      getFeat_append_right_eq _ _ _ (show
        getFeat "max_similarity_to_session"
          (simAggregateFeats itemId sess none) = none from rfl),
      lastItemFeats_no_max]
  · simp only [buildInteractionFeatures]
    rw [getFeat_cons_ne _ _ _ _ (by decide)]
    exact getFeat_append_isSome_right _ _ _ (recencyFeats_no_max _ _)
      (getFeat_append_isSome_left _ _ _ (simAggregateFeats_max_isSome _ _ _))
  · simp only [buildInteractionFeatures]
    rw [getFeat_cons_ne _ _ _ _ (by decide),
      getFeat_append_right_eq _ _ _ (recencyFeats_no_max _ _)]
    refine getFeat_append_left_eq _ _ _ _ ?_
    rw [simAggregateFeats_empty_session]
    simp +decide [getFeat]
  · simp only [buildInteractionFeatures]
    rw [getFeat_cons_ne _ _ _ _ (by decide),
      getFeat_append_right_eq _ _ _ (recencyFeats_no_lastsim _ _),
      getFeat_append_right_eq _ _ _ (simAggregateFeats_no_lastsim _ _ _),
      lastItemFeats_nil]
    rfl
  · simp only [buildInteractionFeatures]
    rw [getFeat_cons_ne _ _ _ _ (by decide)]
    exact getFeat_append_isSome_right _ _ _ (recencyFeats_no_lastsim _ _)
      (getFeat_append_isSome_right _ _ _ (simAggregateFeats_no_lastsim _ _ _)
        (lastItemFeats_cons_isSome _ _ _ _))
  · simp only [buildInteractionFeatures]
    rw [getFeat_cons_ne _ _ _ _ (by decide),
      getFeat_append_right_eq _ _ _ (recencyFeats_no_lastsim _ _),
      getFeat_append_right_eq _ _ _ (simAggregateFeats_no_lastsim _ _ _),
      lastItemFeats_cons_none_val]

/-- C7: every `(item, score, reason)` triple produced by
`rank_candidates` carries reason `viewed_recently` when the item is in
the recent items of the session, else `popular` when its popularity count
exceeds 1000, else `recommended`. -/
theorem ranked_reason_cases :
    ∀ (R : Recommender) (log1p : ℤ → ℚ) (cands : List String)
      (ctx : SessionContext) (item : String) (score : ℚ) (reason : String),
      (item, score, reason) ∈ rankCandidates R log1p cands ctx →
      reason =
        if item ∈ ctx.recentItems then "viewed_recently"
        else if 1000 < popGet R.itemPopularity item then "popular"
        else "recommended" := by
  intro R log1p cands ctx item score reason hmem
  unfold rankCandidates at hmem
  have hmem2 : (item, score, reason) ∈ scoredResults R log1p cands ctx :=
    ((sortDescBy_perm (fun t : String × ℚ × String => t.2.1)
      (scoredResults R log1p cands ctx)).mem_iff).mp hmem
  rw [mem_scoredResults R log1p cands ctx item score reason hmem2,
    getReason_buildFeatureRow]

/-- Witness for C7: the sole candidate `C` (popularity 1500, not recent)
is ranked with reason `popular`. -/
theorem ranked_reason_cases_witness :
    ("popular" : String) =
      (if "C" ∈ ctxR.recentItems then "viewed_recently"
       else if 1000 < popGet recPopC.itemPopularity "C" then "popular"
       else "recommended") :=
  ranked_reason_cases recPopC zeroLog ["C"] ctxR "C" 1500 "popular" (by decide)

end RecSys
